import Mathlib

/-!
Shallow embedding of the boot / privilege-transition layer of the
`15_virtual_mem_part2_mmio_remap` kernel and of its page-fault
integration test harness.

Sources embedded:
- `src/_arch/aarch64/cpu.rs` : `_start`, `el2_to_el1_transition`,
  `wait_forever`, `qemu_exit_failure`, `qemu_exit_success`.
- `tests/02_exception_sync_page_fault.rs` : `kernel_init`.

Register writes and the final `eret` of `el2_to_el1_transition` are
modelled as an event trace together with a register-state semantics;
`_start`'s dispatch is modelled both as a selector function and as a
small-step machine on boot program counters; `kernel_init` is modelled
as a function from its external inputs (the MMU-enable result, the list
of early-driver init results, and whether the out-of-range read raises
a synchronous exception) to the event trace it produces and the way it
terminates.
-/

namespace RpiOS

/-! ## Execution levels (`CurrentEL` register, `SPSR_EL2.M` field) -/

/-- AArch64 exception levels, as read from `CurrentEL`. -/
inductive EL
  | EL0
  | EL1
  | EL2
  | EL3
deriving DecidableEq

/-- Raw value of the `CurrentEL` register for each level (bits 3:2). The
source compares `CurrentEL.get()` with `CurrentEL::EL::EL2.value`. -/
def EL.value : EL → Nat
  | .EL0 => 0
  | .EL1 => 4
  | .EL2 => 8
  | .EL3 => 12

/-- Values of the `SPSR_EL2.M` mode field that the `cortex-a` crate
exposes: target level plus stack-pointer selection (`t` = shared SP0,
`h` = the level's dedicated stack pointer). -/
inductive Mode
  | EL0t
  | EL1t
  | EL1h
  | EL2t
  | EL2h
deriving DecidableEq

/-- Exception level that an `eret` with this mode value resumes at. -/
def Mode.targetLevel : Mode → EL
  | .EL0t => .EL0
  | .EL1t => .EL1
  | .EL1h => .EL1
  | .EL2t => .EL2
  | .EL2h => .EL2

/-- Whether the mode selects the target level's dedicated stack pointer. -/
def Mode.usesDedicatedSp : Mode → Bool
  | .EL1h => true
  | .EL2h => true
  | _ => false

/-- Contents written to `SPSR_EL2`: the four interrupt-mask bits
(`D` debug, `A` async external abort, `I` IRQ, `F` FIQ; `true` =
masked) and the `M` mode field. -/
structure SpsrValue where
  d : Bool
  a : Bool
  i : Bool
  f : Bool
  m : Mode
deriving DecidableEq

/-! ## Events of the boot path (`cpu.rs`) -/

/-- One side-effecting step of `el2_to_el1_transition`: a system
register write, or the final `eret`. -/
inductive BootEvent
  | writeCNTHCTL_EL2 (el1pcen : Bool) (el1pcten : Bool)
  | writeCNTVOFF_EL2 (v : Nat)
  | writeHCR_EL2 (el1IsAarch64 : Bool)
  | writeSPSR_EL2 (v : SpsrValue)
  | writeELR_EL2 (addr : Nat)
  | writeSP_EL1 (v : Nat)
  | eret
deriving DecidableEq

/-- Event trace of `el2_to_el1_transition`, parametrised by the two
externally supplied addresses: the address of
`runtime_init::runtime_init` and
`bsp::memory::phys_boot_core_stack_end()`.

The source performs, in order: enable EL1 counter access, zero the
counter offset, set EL1 to AArch64, write the synthetic `SPSR_EL2`
(all four masks set, mode `EL1h`), point `ELR_EL2` at `runtime_init`,
set `SP_EL1` to the stack end, and finally `eret`. -/
def el2_to_el1_transition (runtime_init_addr stack_end : Nat) : List BootEvent :=
  [ .writeCNTHCTL_EL2 true true,
    .writeCNTVOFF_EL2 0,
    .writeHCR_EL2 true,
    .writeSPSR_EL2 ⟨true, true, true, true, .EL1h⟩,
    .writeELR_EL2 runtime_init_addr,
    .writeSP_EL1 stack_end,
    .eret ]

/-! ## Register-state semantics of the boot events -/

/-- The architectural state the transition touches: the written system
registers, plus the observable outcome of `eret` (current level, resume
program counter, active stack pointer). -/
structure RegState where
  currentLevel : EL
  cnthctl_el1pcen : Bool
  cnthctl_el1pcten : Bool
  cntvoff_el2 : Nat
  hcr_el1IsAarch64 : Bool
  spsr_el2 : SpsrValue
  elr_el2 : Nat
  sp_el1 : Nat
  pc : Nat
  activeSp : Nat
deriving DecidableEq

/-- Effect of one boot event on the register state. `eret` consumes the
previously written `SPSR_EL2`/`ELR_EL2`/`SP_EL1`: it resumes at
`elr_el2`, at the level named by the mode field, with `SP_EL1` as the
active stack pointer exactly when the mode is `EL1h`. -/
def applyEvent (s : RegState) : BootEvent → RegState
  | .writeCNTHCTL_EL2 a b => { s with cnthctl_el1pcen := a, cnthctl_el1pcten := b }
  | .writeCNTVOFF_EL2 v => { s with cntvoff_el2 := v }
  | .writeHCR_EL2 b => { s with hcr_el1IsAarch64 := b }
  | .writeSPSR_EL2 v => { s with spsr_el2 := v }
  | .writeELR_EL2 a => { s with elr_el2 := a }
  | .writeSP_EL1 v => { s with sp_el1 := v }
  | .eret =>
      { s with
        currentLevel := s.spsr_el2.m.targetLevel,
        pc := s.elr_el2,
        activeSp := if s.spsr_el2.m = Mode.EL1h then s.sp_el1 else s.activeSp }

/-- Run a boot-event trace from a starting register state. -/
def runEvents (s : RegState) (es : List BootEvent) : RegState :=
  es.foldl applyEvent s

/-! ## Boot dispatch (`_start`) -/

/-- The two possible continuations of `_start`. -/
inductive BootAction
  | enterTransition
  | park
deriving DecidableEq

/-- `_start`: proceed into `el2_to_el1_transition` exactly when the
configured boot core id equals this core's id and `CurrentEL` reads as
EL2; otherwise fall into `wait_forever`. -/
def _start (boot_core_id core_id : Nat) (current_el : EL) : BootAction :=
  if boot_core_id = core_id ∧ current_el.value = EL.EL2.value then
    BootAction.enterTransition
  else
    BootAction.park

/-- Program counter of the boot layer's small-step machine: the
dispatch point, the i-th step of the transition sequence, the parked
wfe-loop, or control handed off past `eret`. -/
inductive BootPC
  | start
  | trans (i : Nat)
  | parked
  | handoff
deriving DecidableEq

/-- Number of events in `el2_to_el1_transition`. -/
def transitionLength : Nat := 7

/-- Small-step transition of the boot layer for one core: dispatch
according to `_start`; advance through the transition events and leave
the layer at the `eret`; `wait_forever` loops in place. -/
def bootStep (boot_core_id core_id : Nat) (current_el : EL) : BootPC → BootPC
  | .start =>
      match _start boot_core_id core_id current_el with
      | .enterTransition => .trans 0
      | .park => .parked
  | .trans i => if i + 1 < transitionLength then .trans (i + 1) else .handoff
  | .parked => .parked
  | .handoff => .handoff

/-! ## Parking (`wait_forever`) -/

/-- The only instruction the parked loop executes. -/
inductive Instr
  | wfe
deriving DecidableEq

/-- `wait_forever`: `loop { asm::wfe() }`. `wait_forever n` is the
instruction stream emitted by the first `n` loop iterations: each
iteration executes exactly one `wfe` and returns to the loop head. -/
def wait_forever : Nat → List Instr
  | 0 => []
  | n + 1 => wait_forever n ++ [.wfe]

/-! ## Exit signaling (`qemu_exit_failure` / `qemu_exit_success`) -/

/-- How a run of this layer's code can end: one of the two host-visible
QEMU exit codes, parked forever, or control diverted out of the layer
(to the synchronous-exception handler). -/
inductive Termination
  | qemuExitSuccess
  | qemuExitFailure
  | parked
  | diverted
deriving DecidableEq

/-- `qemu_exit_failure`: make the host QEMU binary execute `exit(1)`. -/
def qemu_exit_failure : Termination := .qemuExitFailure

/-- `qemu_exit_success`: make the host QEMU binary execute `exit(0)`. -/
def qemu_exit_success : Termination := .qemuExitSuccess

/-! ## The page-fault test harness (`tests/02_exception_sync_page_fault.rs`) -/

/-- One observable step of `kernel_init`: console bring-up, a `println!`
line, installing exception handling, the call into
`kernel_map_binary_and_enable_mmu`, one driver's `init()`, the
post-init hook, the `read_volatile` at an address, or one of the two
QEMU exit signals. -/
inductive HarnessEvent
  | qemuBringUpConsole
  | printLine (s : String)
  | handlingInit
  | enableMmu
  | driverInit
  | postDriverInit
  | readVolatile (addr : Nat)
  | exitFailure
  | exitSuccess
deriving DecidableEq

/-- `big_addr`: the address the harness deliberately reads,
`9 * 1024 * 1024 * 1024` (9 GiB). -/
def big_addr : Nat := 9 * 1024 * 1024 * 1024

/-- Modelled from the spec: `kernel_map_binary_and_enable_mmu` and the
board memory map are external collaborators, not part of the embedded
sources. Per the spec the fault-injection address lies outside any
mapped region, "far beyond installed memory"; installed memory and
MMIO on the supported boards fit in a 32-bit physical address space,
so every mapped region ends at or below the 4 GiB mark. -/
def spec_mapped_region_end : Nat := 4 * 1024 * 1024 * 1024

/-- External inputs that determine `kernel_init`'s behaviour: the
result of the MMU-enable call, the result of each early-print driver's
`init()` in priority order, and whether the out-of-range read raises a
synchronous exception (i.e. whether memory protection diverts it). -/
structure HarnessInput where
  mmuResult : Except String Unit
  driverResults : List (Except String Unit)
  readFaults : Bool

/-- The `for i in ... early_print_device_drivers().iter()` loop: each
driver's `init()` is one event; the first error aborts the loop
(`unwrap_or_else(|_| cpu::qemu_exit_failure())`). Returns the events of
the loop body and whether every `init()` succeeded. -/
def driverLoop : List (Except String Unit) → List HarnessEvent × Bool
  | [] => ([], true)
  | Except.ok _ :: rs =>
      let p := driverLoop rs
      (HarnessEvent.driverInit :: p.1, p.2)
  | Except.error _ :: _ => ([HarnessEvent.driverInit], false)

/-- The events `kernel_init` performs before inspecting the MMU-enable
result: console bring-up, the two banner lines,
`exception::handling_init()`, and the call into
`kernel_map_binary_and_enable_mmu`. -/
def preTrace : List HarnessEvent :=
  [ HarnessEvent.qemuBringUpConsole,
    HarnessEvent.printLine ("Testing synchronous exception handling by causing a page fault"),
    HarnessEvent.printLine ("-------------------------------------------------------------------\n"),
    HarnessEvent.handlingInit,
    HarnessEvent.enableMmu ]

/-- `kernel_init` of the test, as a function from its external inputs
to the event trace it emits and the way it terminates.

- MMU enable fails: print the error and `qemu_exit_failure()`.
- A driver `init()` fails: `qemu_exit_failure()` at once (nothing can
  be printed yet).
- All inits succeed: run the post-init hook, print, `read_volatile`
  the 9 GiB address; if that read faults, control diverts to the
  synchronous-exception handler (outside this function), otherwise
  execution falls through to `qemu_exit_failure()`. -/
def kernel_init (inp : HarnessInput) : List HarnessEvent × Termination :=
  match inp.mmuResult with
  | Except.error s =>
      (preTrace ++
        [HarnessEvent.printLine ("Enabling MMU failed: " ++ s),
         HarnessEvent.exitFailure],
       qemu_exit_failure)
  | Except.ok _ =>
      let p := driverLoop inp.driverResults
      if p.2 then
        if inp.readFaults then
          (preTrace ++ p.1 ++
            [HarnessEvent.postDriverInit,
             HarnessEvent.printLine ("Writing beyond mapped area to address 9 GiB..."),
             HarnessEvent.readVolatile big_addr],
           Termination.diverted)
        else
          (preTrace ++ p.1 ++
            [HarnessEvent.postDriverInit,
             HarnessEvent.printLine ("Writing beyond mapped area to address 9 GiB..."),
             HarnessEvent.readVolatile big_addr,
             HarnessEvent.exitFailure],
           qemu_exit_failure)
      else
        (preTrace ++ p.1 ++ [HarnessEvent.exitFailure], qemu_exit_failure)

/-- Recognise the fault-injection read events of a harness trace. -/
def isRead : HarnessEvent → Bool
  | .readVolatile _ => true
  | _ => false

/-! ## Helper lemmas -/

/-- The raw `CurrentEL` comparison of the source is equivalent to being
at EL2: `EL.value` is injective on the four levels. -/
theorem el_value_eq_iff (l : EL) : l.value = EL.EL2.value ↔ l = EL.EL2 := by
  cases l <;> simp [EL.value]

/-- Once parked, the boot machine stays parked forever. -/
theorem bootStep_parked_iter (b c : Nat) (l : EL) (n : Nat) :
    Nat.iterate (bootStep b c l) n BootPC.parked = BootPC.parked := by
  induction n with
  | zero => rfl
  | succ n ih => rw [Function.iterate_succ_apply, bootStep]; exact ih

/-- The parked loop's instruction stream is nothing but `wfe`s. -/
theorem wait_forever_eq_replicate (n : Nat) :
    wait_forever n = List.replicate n Instr.wfe := by
  induction n with
  | zero => rfl
  | succ n ih => rw [wait_forever, ih, ← List.replicate_succ']

/-- Every event the driver loop emits is a `driverInit`. -/
theorem driverLoop_events (drs : List (Except String Unit)) :
    ∀ ev ∈ (driverLoop drs).1, ev = HarnessEvent.driverInit := by
  induction drs with
  | nil => simp [driverLoop]
  | cons r rs ih =>
      cases r with
      | ok u =>
          intro ev hev
          simp only [driverLoop, List.mem_cons] at hev
          rcases hev with h | h
          · exact h
          · exact ih ev h
      | error e =>
          intro ev hev
          simp only [driverLoop, List.mem_cons, List.not_mem_nil, or_false] at hev
          exact hev

/-- When every driver's `init()` succeeds, the loop emits one
`driverInit` per driver and reports success. -/
theorem driverLoop_ok (drs : List (Except String Unit))
    (h : ∀ r ∈ drs, r = Except.ok ()) :
    driverLoop drs = (List.replicate drs.length HarnessEvent.driverInit, true) := by
  induction drs with
  | nil => rfl
  | cons r rs ih =>
      have hr : r = Except.ok () := h r (by simp)
      subst hr
      have hrs := ih (fun r hr => h r (by simp [hr]))
      simp [driverLoop, hrs, List.replicate_succ]

/-- The first failing driver aborts the loop: with a succeeding prefix
`drs1`, the loop emits `drs1.length + 1` init events and reports
failure, never reaching the drivers after the failing one. -/
theorem driverLoop_err (drs1 drs2 : List (Except String Unit)) (e : String)
    (h : ∀ r ∈ drs1, r = Except.ok ()) :
    driverLoop (drs1 ++ Except.error e :: drs2) =
      (List.replicate (drs1.length + 1) HarnessEvent.driverInit, false) := by
  induction drs1 with
  | nil => simp [driverLoop, List.replicate_succ]
  | cons r rs ih =>
      have hr : r = Except.ok () := h r (by simp)
      subst hr
      have hrs := ih (fun r hr => h r (by simp [hr]))
      simp [driverLoop, hrs, List.replicate_succ]

/-- Every trace of `kernel_init` starts with the five fixed events of
`preTrace`. -/
theorem kernel_init_shape (inp : HarnessInput) :
    ∃ t, (kernel_init inp).1 = preTrace ++ t := by
  rcases hm : inp.mmuResult with s | u
  · exact ⟨[HarnessEvent.printLine ("Enabling MMU failed: " ++ s), HarnessEvent.exitFailure],
      by simp [kernel_init, hm]⟩
  · by_cases hp : (driverLoop inp.driverResults).2
    · by_cases hr : inp.readFaults
      · exact ⟨(driverLoop inp.driverResults).1 ++
          [HarnessEvent.postDriverInit,
           HarnessEvent.printLine ("Writing beyond mapped area to address 9 GiB..."),
           HarnessEvent.readVolatile big_addr],
          by simp [kernel_init, hm, hp, hr, List.append_assoc]⟩
      · exact ⟨(driverLoop inp.driverResults).1 ++
          [HarnessEvent.postDriverInit,
           HarnessEvent.printLine ("Writing beyond mapped area to address 9 GiB..."),
           HarnessEvent.readVolatile big_addr,
           HarnessEvent.exitFailure],
          by simp [kernel_init, hm, hp, hr, List.append_assoc]⟩
    · exact ⟨(driverLoop inp.driverResults).1 ++ [HarnessEvent.exitFailure],
        by simp [kernel_init, hm, hp, List.append_assoc]⟩

/-! ## Claim theorems -/

/-- C1: Boot Dispatch is a total function on every core: it invokes the
Privilege Transition Engine exactly when
`core_id() == boot_core && current_level() == Level2`, and parks in
every other case; in particular, for every core whose id differs from
the boot-core constant, it parks and the transition engine (and the
handoff past it) is never reached by the boot machine. -/
theorem c1_boot_dispatch_total (b c : Nat) (l : EL) :
    ((_start b c l = BootAction.enterTransition) ↔ (c = b ∧ l = EL.EL2)) ∧
    (_start b c l = BootAction.enterTransition ∨ _start b c l = BootAction.park) ∧
    (c ≠ b →
      _start b c l = BootAction.park ∧
      ∀ n, Nat.iterate (bootStep b c l) n BootPC.start ≠ BootPC.handoff ∧
        ∀ i, Nat.iterate (bootStep b c l) n BootPC.start ≠ BootPC.trans i) := by
  have hval := el_value_eq_iff l
  have hstart : _start b c l = BootAction.enterTransition ↔ (c = b ∧ l = EL.EL2) := by
    unfold _start
    by_cases hcond : b = c ∧ l.value = EL.EL2.value
    · rw [if_pos hcond]
      simp [hcond.1.symm, hval.mp hcond.2]
    · rw [if_neg hcond]
      constructor
      · intro h; exact absurd h (by simp)
      · intro h; exact absurd ⟨h.1.symm, hval.mpr h.2⟩ hcond
  refine ⟨hstart, ?_, ?_⟩
  · by_cases hcond : b = c ∧ l.value = EL.EL2.value
    · left; unfold _start; rw [if_pos hcond]
    · right; unfold _start; rw [if_neg hcond]
  · intro hne
    have hpark : _start b c l = BootAction.park := by
      unfold _start
      rw [if_neg]
      intro hcond
      exact hne hcond.1.symm
    refine ⟨hpark, ?_⟩
    intro n
    cases n with
    | zero => exact ⟨by simp, fun i => by simp⟩
    | succ n =>
        have hstep : bootStep b c l BootPC.start = BootPC.parked := by
          simp [bootStep, hpark]
        have hiter : Nat.iterate (bootStep b c l) (n + 1) BootPC.start = BootPC.parked := by
          rw [Function.iterate_succ_apply, hstep]
          exact bootStep_parked_iter b c l n
        rw [hiter]
        exact ⟨by simp, fun i => by simp⟩

/-- Witness for C1: on core 1 with boot core 0, at EL2, dispatch parks
and the machine never reaches the handoff. -/
theorem c1_witness :
    _start 0 1 EL.EL2 = BootAction.park ∧
    Nat.iterate (bootStep 0 1 EL.EL2) 3 BootPC.start ≠ BootPC.handoff :=
  ⟨((c1_boot_dispatch_total 0 1 EL.EL2).2.2 (by decide)).1,
   (((c1_boot_dispatch_total 0 1 EL.EL2).2.2 (by decide)).2 3).1⟩

/-- C4: for the boot core at EL2 the transition issues exactly one
`eret`; the `ELR_EL2` write (resume address := runtime handoff entry)
and the `SP_EL1` write (dedicated EL1 stack) both precede it (indices
4 and 5 versus 6, and 6 is the only `eret` index); and running the
trace from any starting register state resumes at the handoff entry
point at EL1 with the configured stack active. -/
theorem c4_transition_single_eret (rt sp : Nat) (s : RegState) :
    (((el2_to_el1_transition rt sp).filter (fun e => e = BootEvent.eret)).length = 1) ∧
    ((el2_to_el1_transition rt sp).get? 4 = some (BootEvent.writeELR_EL2 rt) ∧
     (el2_to_el1_transition rt sp).get? 5 = some (BootEvent.writeSP_EL1 sp) ∧
     (el2_to_el1_transition rt sp).get? 6 = some BootEvent.eret ∧
     (∀ k, (el2_to_el1_transition rt sp).get? k = some BootEvent.eret → k = 6)) ∧
    ((runEvents s (el2_to_el1_transition rt sp)).currentLevel = EL.EL1 ∧
     (runEvents s (el2_to_el1_transition rt sp)).pc = rt ∧
     (runEvents s (el2_to_el1_transition rt sp)).activeSp = sp) := by
  refine ⟨rfl, ⟨rfl, rfl, rfl, ?_⟩, rfl, rfl, rfl⟩
  intro k h
  rcases k with _ | _ | _ | _ | _ | _ | _ | m
  · simp [el2_to_el1_transition] at h
  · simp [el2_to_el1_transition] at h
  · simp [el2_to_el1_transition] at h
  · simp [el2_to_el1_transition] at h
  · simp [el2_to_el1_transition] at h
  · simp [el2_to_el1_transition] at h
  · rfl
  · simp [el2_to_el1_transition] at h

/-- C5: every `SPSR_EL2` frame the transition writes has all four
maskable interrupt classes (D, A, I, F) masked and selects EL1's
dedicated stack pointer (`EL1h`). -/
theorem c5_spsr_frame_invariant (rt sp : Nat) (v : SpsrValue)
    (h : BootEvent.writeSPSR_EL2 v ∈ el2_to_el1_transition rt sp) :
    v.d = true ∧ v.a = true ∧ v.i = true ∧ v.f = true ∧ v.m = Mode.EL1h := by
  simp only [el2_to_el1_transition, List.mem_cons, List.not_mem_nil, or_false] at h
  rcases h with h | h | h | h | h | h | h
  all_goals first
    | (cases h; exact ⟨rfl, rfl, rfl, rfl, rfl⟩)
    | (cases h)

/-- Witness for C5: the frame actually written by the transition. -/
theorem c5_witness :
    SpsrValue.d ⟨true, true, true, true, Mode.EL1h⟩ = true ∧
    SpsrValue.a ⟨true, true, true, true, Mode.EL1h⟩ = true ∧
    SpsrValue.i ⟨true, true, true, true, Mode.EL1h⟩ = true ∧
    SpsrValue.f ⟨true, true, true, true, Mode.EL1h⟩ = true ∧
    SpsrValue.m ⟨true, true, true, true, Mode.EL1h⟩ = Mode.EL1h :=
  c5_spsr_frame_invariant 0 0 ⟨true, true, true, true, Mode.EL1h⟩ (by decide)

/-- C8: parking never returns: from the parked state every number of
steps of the boot machine stays parked (so no parked state ever
transitions back to code of this layer), and the instruction stream of
the loop is nothing but repeated `wfe`. -/
theorem c8_park_forever (b c : Nat) (l : EL) (n : Nat) :
    Nat.iterate (bootStep b c l) n BootPC.parked = BootPC.parked ∧
    wait_forever n = List.replicate n Instr.wfe :=
  ⟨bootStep_parked_iter b c l n, wait_forever_eq_replicate n⟩

/-- The driver loop never emits the success exit signal. -/
theorem driverLoop_no_success (drs : List (Except String Unit)) :
    HarnessEvent.exitSuccess ∉ (driverLoop drs).1 := by
  intro hmem
  have hd := driverLoop_events drs _ hmem
  simp at hd

/-- C2: if the deliberate read of the unmapped address completes
normally (no synchronous exception), execution falls through and the
harness emits an explicit Failure termination signal, with the failure
exit immediately after the read in the trace. -/
theorem c2_fallthrough_failure (drs : List (Except String Unit))
    (h : ∀ r ∈ drs, r = Except.ok ()) :
    (kernel_init ⟨Except.ok (), drs, false⟩).2 = Termination.qemuExitFailure ∧
    ∃ p, (kernel_init ⟨Except.ok (), drs, false⟩).1 =
      p ++ [HarnessEvent.readVolatile big_addr, HarnessEvent.exitFailure] := by
  have hd := driverLoop_ok drs h
  constructor
  · simp [kernel_init, hd, qemu_exit_failure]
  · refine ⟨preTrace ++ List.replicate drs.length HarnessEvent.driverInit ++
      [HarnessEvent.postDriverInit,
       HarnessEvent.printLine ("Writing beyond mapped area to address 9 GiB...")], ?_⟩
    simp [kernel_init, hd, List.append_assoc]

/-- Witness for C2 with an empty driver list. -/
theorem c2_witness :
    (kernel_init ⟨Except.ok (), [], false⟩).2 = Termination.qemuExitFailure ∧
    ∃ p, (kernel_init ⟨Except.ok (), [], false⟩).1 =
      p ++ [HarnessEvent.readVolatile big_addr, HarnessEvent.exitFailure] :=
  c2_fallthrough_failure [] (by simp)

/-- C3 counterexample: with one failing early driver, the harness
terminates through the QEMU failure exit, not by parking — the claim's
"diverts to Failure via parking" is false on the code. -/
theorem c3_counterexample :
    (kernel_init ⟨Except.ok (), [Except.error ("uart")], false⟩).2 =
      Termination.qemuExitFailure ∧
    (kernel_init ⟨Except.ok (), [Except.error ("uart")], false⟩).2 ≠
      Termination.parked := by
  refine ⟨rfl, ?_⟩
  intro hcontra
  exact Termination.noConfusion hcontra

/-- C3 (amended): if any early driver's `init()` returns an error, the
harness stops at the failing driver and terminates at once with the
QEMU Failure exit signal — not by parking — and never reaches the
fault-injection read. -/
theorem c3_driver_error_exit_failure (drs1 drs2 : List (Except String Unit))
    (e : String) (rf : Bool) (h : ∀ r ∈ drs1, r = Except.ok ()) :
    kernel_init ⟨Except.ok (), drs1 ++ Except.error e :: drs2, rf⟩ =
      (preTrace ++ List.replicate (drs1.length + 1) HarnessEvent.driverInit ++
        [HarnessEvent.exitFailure],
       Termination.qemuExitFailure) := by
  have hd := driverLoop_err drs1 drs2 e h
  simp [kernel_init, hd, qemu_exit_failure, List.append_assoc]

/-- Witness for C3's amended theorem: a single driver that fails. -/
theorem c3_witness :
    kernel_init ⟨Except.ok (), [Except.error ("pl011")], false⟩ =
      (preTrace ++ List.replicate 1 HarnessEvent.driverInit ++ [HarnessEvent.exitFailure],
       Termination.qemuExitFailure) :=
  c3_driver_error_exit_failure [] [] ("pl011") false (by simp)

/-- C6: if the MMU-enable operation returns an error, the harness
prints a line naming that cause, terminates with the Failure exit, and
never performs the fault-injection read (the whole trace is pinned). -/
theorem c6_mmu_error_reported (s : String) (drs : List (Except String Unit)) (rf : Bool) :
    kernel_init ⟨Except.error s, drs, rf⟩ =
      (preTrace ++
        [HarnessEvent.printLine ("Enabling MMU failed: " ++ s), HarnessEvent.exitFailure],
       Termination.qemuExitFailure) ∧
    (∀ a, HarnessEvent.readVolatile a ∉ (kernel_init ⟨Except.error s, drs, rf⟩).1) := by
  refine ⟨rfl, ?_⟩
  intro a hmem
  simp [kernel_init, preTrace] at hmem

/-- C7: the fault-injection step performs exactly one volatile read,
at the fixed address `9 * 1024 * 1024 * 1024` (9 GiB), beyond the end
of the mapped regions. -/
theorem c7_single_volatile_read (drs : List (Except String Unit)) (rf : Bool)
    (h : ∀ r ∈ drs, r = Except.ok ()) :
    ((kernel_init ⟨Except.ok (), drs, rf⟩).1.filter isRead) =
      [HarnessEvent.readVolatile big_addr] ∧
    big_addr = 9 * 1024 * 1024 * 1024 ∧
    spec_mapped_region_end < big_addr := by
  have hd := driverLoop_ok drs h
  refine ⟨?_, rfl, by decide⟩
  have hrep : (List.replicate drs.length HarnessEvent.driverInit).filter isRead = [] := by
    induction drs.length with
    | zero => rfl
    | succ n ih => simp [List.replicate_succ, List.filter, isRead, ih]
  cases rf
  · simp [kernel_init, hd, List.filter_append, hrep, preTrace, isRead, List.filter]
  · simp [kernel_init, hd, List.filter_append, hrep, preTrace, isRead, List.filter]

/-- Witness for C7 with no drivers and a non-faulting read. -/
theorem c7_witness :
    ((kernel_init ⟨Except.ok (), [], false⟩).1.filter isRead) =
      [HarnessEvent.readVolatile big_addr] ∧
    big_addr = 9 * 1024 * 1024 * 1024 ∧
    spec_mapped_region_end < big_addr :=
  c7_single_volatile_read [] false (by simp)

/-- C9: the harness never signals Success from its own body: for every
input its trace contains no success exit, and it terminates either in
the Failure exit or by diverting out of the harness to the external
synchronous-exception path. -/
theorem c9_no_success_from_harness (inp : HarnessInput) :
    HarnessEvent.exitSuccess ∉ (kernel_init inp).1 ∧
    (kernel_init inp).2 ≠ Termination.qemuExitSuccess ∧
    ((kernel_init inp).2 = Termination.qemuExitFailure ∨
      (kernel_init inp).2 = Termination.diverted) := by
  have hds := driverLoop_no_success inp.driverResults
  rcases hm : inp.mmuResult with s | u
  · refine ⟨?_, ?_, Or.inl ?_⟩
    · intro hmem
      simp [kernel_init, hm, preTrace] at hmem
    · simp [kernel_init, hm, qemu_exit_failure]
    · simp [kernel_init, hm, qemu_exit_failure]
  · by_cases hp : (driverLoop inp.driverResults).2
    · by_cases hr : inp.readFaults
      · refine ⟨?_, ?_, Or.inr ?_⟩
        · intro hmem
          simp [kernel_init, hm, hp, hr, preTrace] at hmem
          exact hds hmem
        · simp [kernel_init, hm, hp, hr]
        · simp [kernel_init, hm, hp, hr]
      · refine ⟨?_, ?_, Or.inl ?_⟩
        · intro hmem
          simp [kernel_init, hm, hp, hr, preTrace] at hmem
          exact hds hmem
        · simp [kernel_init, hm, hp, hr, qemu_exit_failure]
        · simp [kernel_init, hm, hp, hr, qemu_exit_failure]
    · refine ⟨?_, ?_, Or.inl ?_⟩
      · intro hmem
        simp [kernel_init, hm, hp, preTrace] at hmem
        exact hds hmem
      · simp [kernel_init, hm, hp, qemu_exit_failure]
      · simp [kernel_init, hm, hp, qemu_exit_failure]

/-- C10: on every input, `handling_init` is the fourth event of the
trace and strictly precedes both the MMU-enable call and every
fault-injection read. -/
theorem c10_handling_init_ordering (inp : HarnessInput) :
    (kernel_init inp).1.get? 3 = some HarnessEvent.handlingInit ∧
    (∀ j, (kernel_init inp).1.get? j = some HarnessEvent.enableMmu → 3 < j) ∧
    (∀ j a, (kernel_init inp).1.get? j = some (HarnessEvent.readVolatile a) → 3 < j) := by
  obtain ⟨t, ht⟩ := kernel_init_shape inp
  rw [ht]
  refine ⟨rfl, ?_, ?_⟩
  · intro j hj
    by_contra hlt
    push_neg at hlt
    interval_cases j <;> simp [preTrace] at hj
  · intro j a hj
    by_contra hlt
    push_neg at hlt
    interval_cases j <;> simp [preTrace] at hj

end RpiOS
